import Mathlib

/-!
Verification of the pyccel Python-backend printer and AST internals.

Shallow embedding of:
  * pyccel/codegen/printing/pycode.py (PythonCodePrinter)
  * pyccel/ast/internals.py (PyccelInternalFunction, PyccelArraySize, Slice)
  * pyccel/parser/syntax/openmp.py (parse)
  * pyccel/ast/functionalexpr.py (FunctionalFor and friends)

Python strings are embedded as Lean `String`; Python dicts keyed by strings
as insertion-ordered association lists; Python sets as duplicate-free lists
used only through membership; exceptions as `Except`.
-/

namespace Pyccel

/-! ## String helpers shared by the printers -/

/-- Replace every occurrence of the character `c` by the character list
`repl`, embedding Python's `str.replace` for a one-character pattern. -/
def replaceChar (c : Char) (repl : List Char) : List Char → List Char
  | [] => []
  | x :: xs => (if x = c then repl else [x]) ++ replaceChar c repl xs

/-- Remove every leading and trailing occurrence of the character `c`,
embedding Python's `str.strip` with a one-character argument. -/
def stripChar (c : Char) (s : List Char) : List Char :=
  ((s.dropWhile (fun x => x = c)).reverse.dropWhile (fun x => x = c)).reverse

/-- The tab used by the Python printer: `tabwidth` is 4 in
`PythonCodePrinter._default_settings`. -/
def pyTab : List Char := [' ', ' ', ' ', ' ']

/-- Embedding of `PythonCodePrinter._indent_codestring`: the empty string is
returned unchanged; otherwise the newline-stripped text is prefixed with one
tab, every inner newline gets a tab appended, and a final newline is
restored. -/
def indentCodestring (lines : String) : String :=
  if lines = "" then lines
  else String.mk (pyTab ++ replaceChar '\n' ('\n' :: pyTab) (stripChar '\n' lines.toList)) ++ "\n"

/-- Index of the first occurrence of `pat` as a contiguous sublist of `s`,
or `none` when it does not occur. -/
def findSub (pat : List Char) : List Char → Option Nat
  | [] => if pat = [] then some 0 else none
  | c :: cs => if pat.isPrefixOf (c :: cs) then some 0 else (findSub pat cs).map (· + 1)

/-- `occursBeforeIn a b s` holds when both `a` and `b` occur in `s` and the
first occurrence of `a` starts strictly before the first occurrence of `b`. -/
def occursBeforeIn (a b s : String) : Bool :=
  match findSub a.toList s.toList, findSub b.toList s.toList with
  | some i, some j => decide (i < j)
  | _, _ => false

/-! ## pyccel/ast/internals.py -/

/-- The two pipeline stages recorded in `PyccelAstNode.stage`. -/
inductive PyccelStage where
  | syntactic
  | semantic
deriving DecidableEq, Repr

/-- The native element kinds from pyccel/ast/datatypes.py that a typed
value's `dtype` attribute can carry. -/
inductive NativeType where
  | nativeInteger
  | nativeFloat
  | nativeComplex
  | nativeBool
deriving DecidableEq, Repr

/-- A candidate slice bound: `dtype` is `none` when the Python object has no
`dtype` attribute at all (the `hasattr` check in `Slice.__init__`). -/
structure SliceBound where
  dtype : Option NativeType
deriving DecidableEq, Repr

/-- The per-bound test of `Slice.__init__`: a missing bound passes, and a
present bound passes exactly when it has a `dtype` attribute holding a
`NativeInteger`. -/
def sliceBoundOk : Option SliceBound → Bool
  | none => true
  | some v => decide (v.dtype = some NativeType.nativeInteger)

/-- Embedding of `Slice.__init__`: the attributes are stored, then in the
syntactic stage the constructor returns immediately; in the semantic stage
each present bound must be integer typed or a `TypeError` is raised. -/
def sliceInit (stage : PyccelStage) (start stop step : Option SliceBound) :
    Except String (Option SliceBound × Option SliceBound × Option SliceBound) :=
  if stage = PyccelStage.syntactic then .ok (start, stop, step)
  else if ¬ sliceBoundOk start then .error "Slice start must be Integer or None"
  else if ¬ sliceBoundOk stop then .error "Slice stop must be Integer or None"
  else if ¬ sliceBoundOk step then .error "Slice step must be Integer or None"
  else .ok (start, stop, step)

/-- Modelled from the spec: the `default_precision` table lives in
pyccel/ast/datatypes.py, which is not among the provided sources; the spec
(§3 Typed Value) fixes `-1` as the marker meaning "use the backend's native
width", so the table's entry for the integer kind is `-1`. -/
def defaultIntegerPrecision : Int := -1

/-- The run-time classification of a Python object passed to
`PyccelArraySize.__init__`: a `list`, a `tuple`, a `PyccelAstNode`, a plain
`int`, or anything else. -/
inductive PyVal where
  | listV
  | tupleV
  | astNodeV
  | intV (n : Int)
  | otherV
deriving DecidableEq, Repr

/-- How `PyccelArraySize.__init__` stores its index: a plain `int` argument
is wrapped into a `LiteralInteger`, a `PyccelAstNode` is kept as given. -/
inductive IndexRepr where
  | literalInt (n : Int)
  | node
deriving DecidableEq, Repr

/-- The attributes set by `PyccelArraySize.__init__`. -/
structure PyccelArraySizeT where
  arg : PyVal
  index : IndexRepr
  dtype : NativeType
  rank : Nat
  shape : List Unit
  precision : Int
deriving DecidableEq, Repr

/-- Embedding of `PyccelArraySize.__init__`: the argument must be a list, a
tuple or a `PyccelAstNode`; an `int` index is wrapped in a `LiteralInteger`
and any other non-node index is rejected; the type descriptor is then fixed
to integer kind, rank 0, empty shape and the default integer precision. -/
def pyccelArraySizeInit (arg index : PyVal) : Except String PyccelArraySizeT :=
  if arg = PyVal.listV ∨ arg = PyVal.tupleV ∨ arg = PyVal.astNodeV then
    match index with
    | PyVal.intV n =>
        .ok ⟨arg, IndexRepr.literalInt n, NativeType.nativeInteger, 0, [], defaultIntegerPrecision⟩
    | PyVal.astNodeV =>
        .ok ⟨arg, IndexRepr.node, NativeType.nativeInteger, 0, [], defaultIntegerPrecision⟩
    | _ => .error "Unknown type of index"
  else .error "Unknown type of arg"

/-- The state held by the base class `PyccelInternalFunction`: the tuple of
arguments passed to the internal function call. -/
structure PyccelInternalFunctionT where
  args : List PyVal
deriving DecidableEq, Repr

/-- Embedding of the base-class property `PyccelInternalFunction.is_elemental`:
it ignores the node and returns `False`. -/
def PyccelInternalFunctionT.is_elemental (_f : PyccelInternalFunctionT) : Bool :=
  false

/-- Embedding of `_print_PyccelInternalFunction`: the direct-call form
`name(arg, ..., arg)`, the only form this printer ever emits. -/
def printPyccelInternalFunction (name : String) (argStrs : List String) : String :=
  name ++ "(" ++ String.intercalate ", " argStrs ++ ")"

/-! ## Import registration (pycode.py `insert_new_import` / `get_additional_imports`)

`AsName` and `Import` are declared in pyccel/ast/core.py which is not among
the provided sources; following the spec (§4.6 import/alias table: keyed by
(source-module, symbol) pairs, re-registration is a no-op) they are modelled
as value types compared structurally, with `Import` normalising its single
target into a one-element tuple. The printer's `_additional_imports` dict is
an insertion-ordered association list from the stringified source to a pair
of a membership set of targets and the list of `Import` objects to emit. -/

/-- An `AsName(name, target)` pair: the imported object and the alias used
for it. A plain symbol `s` is represented as `⟨s, s⟩`. -/
structure AsNameT where
  name : String
  target : String
deriving DecidableEq, Repr

/-- An `Import` object as stored for emission: the stringified source module
and the (normalised, one-element) target tuple. -/
structure ImportT where
  source : String
  targets : List AsNameT
deriving DecidableEq, Repr

/-- The value part of one `_additional_imports` entry: the set of already
registered targets and the list of `Import` objects appended so far. -/
abbrev SrcInfo := List AsNameT × List ImportT

/-- The printer state `self._additional_imports`. -/
structure ImportState where
  additionalImports : List (String × SrcInfo)
deriving DecidableEq, Repr

/-- Python `set.update`: append each element not already present. -/
def setUpdate (s ts : List AsNameT) : List AsNameT :=
  ts.foldl (fun acc i => if i ∈ acc then acc else acc ++ [i]) s

/-- Embedding of `PythonCodePrinter.insert_new_import` (all call sites in
pycode.py leave `alias` at its default `None`, so the alias-wrapping branch
is never taken and is not modelled): build the `Import` object, `setdefault`
the source entry, and only when some target is not yet in the membership set
record the targets and append the `Import`. -/
def insert_new_import (st : ImportState) (source : String) (target : AsNameT) : ImportState :=
  let importObj : ImportT := { source := source, targets := [target] }
  let st1 : List (String × SrcInfo) :=
    if st.additionalImports.any (fun p => p.1 = source) then st.additionalImports
    else st.additionalImports ++ [(source, ([], []))]
  let srcInfo := (st1.lookup source).getD ([], [])
  if importObj.targets.any (fun i => decide (i ∉ srcInfo.1)) then
    ⟨st1.map (fun p =>
      if p.1 = source then (source, (setUpdate srcInfo.1 importObj.targets, srcInfo.2 ++ [importObj]))
      else p)⟩
  else ⟨st1⟩

/-- Embedding of `PythonCodePrinter.get_additional_imports`: flatten the
per-source `Import` lists in insertion order. -/
def get_additional_imports (st : ImportState) : List ImportT :=
  (st.additionalImports.map (fun p => p.2.2)).flatten

/-! ## Precision-directed printing (pycode.py)

The printers below are embedded with their already-printed sub-expressions
passed as strings, and the alias table lookup `self._aliases.get(cls, d)`
passed as an `Option String` argument (`none` when the class has no alias). -/

/-- Embedding of `_print_PythonInt`: the name is `int` unless the precision
differs from the default marker `-1`, in which case the width-suffixed
constructor name (or its registered alias) is used and, when no alias was
registered, a numpy import of that constructor is inserted. -/
def printPythonInt (aliasLookup : Option String) (st : ImportState) (precision : Int)
    (argStr : String) : String × ImportState :=
  if precision ≠ -1 then
    let typeName := "int" ++ toString (precision * 8)
    let name := aliasLookup.getD typeName
    let st' := if name = typeName then insert_new_import st "numpy" ⟨"PythonInt", name⟩ else st
    (name ++ "(" ++ argStr ++ ")", st')
  else ("int(" ++ argStr ++ ")", st)

/-- Embedding of `_print_NumpyLinspace`: the dtype keyword is built as the
printed element kind followed by `str(precision*factor)` with no check of
the default-precision marker, and the call is rendered with start, stop,
`num=`, `endpoint=` and `dtype=` arguments. -/
def printNumpyLinspace (name dtypeStr : String) (precision : Int)
    (startStr stopStr numStr endpointStr : String) : String :=
  let factor : Int := if dtypeStr = "complex" then 16 else 8
  let dtype := dtypeStr ++ toString (precision * factor)
  name ++ "(" ++ startStr ++ ", " ++ stopStr ++ ", num=" ++ numStr ++ ", endpoint=" ++ endpointStr
    ++ ", dtype=\x27" ++ dtype ++ "\x27)"

/-! ## Directive parsing (pyccel/parser/syntax/openmp.py) -/

/-- The exception raised by the external textx grammar engine when a comment
violates the active directive grammar. -/
structure TextXError where
  message : String
deriving DecidableEq, Repr

/-- One statement of the parsed meta-model, wrapping the clause object the
syntax parser visits. -/
structure OmpStatementT (α : Type) where
  statement : α
deriving DecidableEq, Repr

/-- The meta-model returned by `meta.model_from_str`. -/
structure MetaModelT (α : Type) where
  statements : List (OmpStatementT α)
deriving DecidableEq, Repr

/-- One diagnostic recorded by the `Errors` collector through
`errors.report(message, severity=..., symbol=...)`. -/
structure Diagnostic where
  message : String
  severity : String
  symbol : String
deriving DecidableEq, Repr

/-- The state of the `Errors` collector: the diagnostics reported so far. -/
structure ErrorsState where
  diagnostics : List Diagnostic
deriving DecidableEq, Repr

/-- Embedding of `errors.report`: append one diagnostic. -/
def errorsReport (st : ErrorsState) (message severity symbol : String) : ErrorsState :=
  ⟨st.diagnostics ++ [⟨message, severity, symbol⟩]⟩

/-- Result of the module-level `parse` function: either a normal return of
an optional AST node together with the updated collector, or an escaped
`AssertionError` (which `except TextXError` does not catch). -/
inductive ParseOutcome (β : Type) where
  | returned (node : Option β) (errors : ErrorsState)
  | assertionFailed
deriving DecidableEq, Repr

/-- Embedding of `parse` from openmp.py. The external grammar engine
`meta.model_from_str` is passed in as a function returning either a
meta-model or the `TextXError` it raises, and `parser._visit` as `visit`.
On a grammar violation the error is reported as fatal with the offending
statement text as the symbol and `None` is returned. -/
def ompParse {α β : Type} (modelFromStr : String → Except TextXError (MetaModelT α))
    (visit : α → β) (stmt : String) (errors : ErrorsState) : ParseOutcome β :=
  match modelFromStr stmt with
  | .ok m =>
      match m.statements with
      | [s] => .returned (some (visit s.statement)) errors
      | _ => .assertionFailed
  | .error e => .returned none (errorsReport errors e.message "fatal" stmt)

/-! ## Directive printing (pycode.py `_print_OmpAnnotatedComment`) -/

/-- The attributes of an `OmpAnnotatedComment` node consulted by the Python
printer: the directive name, the optional combined-construct keyword, and
the remaining clause text. -/
structure OmpAnnotatedCommentT where
  name : String
  combined : Option String
  txt : String
deriving DecidableEq, Repr

/-- Python truthiness of the `combined` attribute (`None` and the empty
string are falsy). -/
def pyTruthyStr : Option String → Bool
  | none => false
  | some v => decide (v ≠ "")

/-- Embedding of `_print_OmpAnnotatedComment`: a leading space plus the
combined keyword when present, the `#$omp ` sentinel plus the directive
name, then the clause text and a newline. -/
def printOmpAnnotatedComment (e : OmpAnnotatedCommentT) : String :=
  let clauses := if pyTruthyStr e.combined then " " ++ e.combined.getD "" else ""
  let ompExpr := "#$omp " ++ e.name
  let clauses := clauses ++ e.txt
  ompExpr ++ clauses ++ "\n"

/-- Modelled from the spec: the directive grammar (pyccel/parser/grammar)
and the clause classes (pyccel/ast/omp.py and omp_versions) are not among
the provided sources; per the spec (§4.4, §8 directive round-trip) parsing
the comment `#$ omp parallel for` under the selected version yields an
annotated-comment node named `parallel` whose combined keyword is `for`,
with no further clause text. -/
def parseOmpParallelFor : OmpAnnotatedCommentT :=
  { name := "parallel", combined := some "for", txt := "" }

/-- The clause text of a printed directive line: the characters after the
6-character `#$omp ` sentinel, without the trailing newline. -/
def ompClauseText (s : String) : String :=
  String.mk ((s.toList.drop 6).dropLast)

/-! ## Composite definitions (pycode.py `_print_FunctionDef` / `_print_Module`)

The nested declarations are embedded with their already-rendered text, and
function identity (Python `is` / membership of `i.functions`) as numeric
ids. The decorator and header handling of `_print_FunctionDef` only
prepends text before the `def` line and is not modelled; the init-function
body extraction of `_print_Module` (an `IfSection` lookup on classes outside
the provided sources) is passed in as the already-printed `initBodyText`. -/

/-- An interface as consulted by the printers: its rendered text, the ids of
the functions it covers, and its `is_argument` flag. -/
structure PInterface where
  text : String
  functions : List Nat
  isArgument : Bool
deriving DecidableEq, Repr

/-- A nested function definition: its identity and rendered text. -/
structure PFunc where
  fid : Nat
  text : String
deriving DecidableEq, Repr

/-- The parts of a `FunctionDef` node consulted by `_print_FunctionDef`. -/
structure PFunctionDef where
  name : String
  args : List String
  docString : String
  imports : List String
  interfaces : List PInterface
  functions : List PFunc
  bodyText : String
deriving DecidableEq, Repr

/-- The filter `[f for f in expr.functions if not any(f in i.functions for i
in expr.interfaces)]` of `_print_FunctionDef`. -/
def functionDefFuncsNotCovered (fd : PFunctionDef) : List PFunc :=
  fd.functions.filter (fun f => ! fd.interfaces.any (fun i => f.fid ∈ i.functions))

/-- Embedding of `_print_FunctionDef`: render imports, interfaces (not
argument-like), functions not covered by an interface, the body and the doc
string; indent each; join them as `doc_string, functions, interfaces,
imports, body` and wrap in the `def` line. -/
def printFunctionDef (fd : PFunctionDef) : String :=
  let name := fd.name
  let imports := String.join fd.imports
  let interfaces := String.join ((fd.interfaces.filter (fun i => ! i.isArgument)).map (fun i => i.text))
  let functions := String.join ((functionDefFuncsNotCovered fd).map (fun f => f.text))
  let body := indentCodestring fd.bodyText
  let args := String.intercalate ", " fd.args
  let imports := indentCodestring imports
  let functions := indentCodestring functions
  let interfaces := indentCodestring interfaces
  let docString := indentCodestring fd.docString
  let body := docString ++ functions ++ interfaces ++ imports ++ body
  "def " ++ name ++ "(" ++ args ++ "):\n" ++ body ++ "\n"

/-- The parts of a `Module` node consulted by `_print_Module`. -/
structure PModule where
  imports : List String
  interfaces : List PInterface
  functions : List PFunc
  initFuncId : Option Nat
  freeFuncId : Option Nat
  classesText : String
  initBodyText : String
  progText : String
deriving DecidableEq, Repr

/-- The filter of `_print_Module`: functions neither covered by an interface
nor the init or free function. -/
def moduleFuncsNotCovered (m : PModule) : List PFunc :=
  m.functions.filter (fun f =>
    ! (m.interfaces.any (fun i => f.fid ∈ i.functions)
        || m.initFuncId == some f.fid || m.freeFuncId == some f.fid))

/-- Embedding of `_print_Module`: imports (with the synthesized additional
imports appended), then a newline, then interfaces, remaining functions,
classes and the init body, then the program text. -/
def printModule (m : PModule) (additionalImportsText : String) : String :=
  let imports := String.join m.imports
  let interfaces := String.join (m.interfaces.map (fun i => i.text))
  let funcs := String.join ((moduleFuncsNotCovered m).map (fun f => f.text))
  let classes := m.classesText
  let initBody := m.initBodyText
  let imports := imports ++ additionalImportsText
  let body := interfaces ++ funcs ++ classes ++ initBody
  imports ++ "\n" ++ body ++ m.progText

/-- A concrete function definition with one nested import, one nested
function and a one-statement body. -/
def sampleFunctionDef : PFunctionDef :=
  { name := "f", args := [], docString := "",
    imports := ["import m\n"], interfaces := [],
    functions := [⟨0, "def g():\n    pass\n"⟩], bodyText := "x = 1\n" }

/-! ## Comprehension lowering (pycode.py `_find_functional_expr_and_iterables`)

The AST fragment the lowering walks: `assign` embeds `Assign`,
`augAssignAdd` embeds `AugAssign` with operator `+` (a subclass of `Assign`,
so both count as the terminal assignment), and `functionalFor` embeds
`FunctionalFor` from pyccel/ast/functionalexpr.py with its `loops`, `lhs`,
`indices` and dummy `index` slots. -/

inductive PyAst where
  | var (name : String)
  | lit (n : Int)
  | add (a b : PyAst)
  | mul (a b : PyAst)
  | rangeCall (start stop step : PyAst)
  | assign (lhs rhs : PyAst)
  | augAssignAdd (lhs rhs : PyAst)
  | codeBlock (body : List PyAst)
  | forLoop (target iterable body : PyAst)
  | functionalFor (loops : List PyAst) (lhs : PyAst) (indices : List PyAst) (index : PyAst)

mutual

/-- Structural equality of AST nodes, embedding Python `==` / `is`
comparisons of node references. -/
def PyAst.beq : PyAst → PyAst → Bool
  | .var a, .var b => a == b
  | .lit a, .lit b => a == b
  | .add a b, .add c d => PyAst.beq a c && PyAst.beq b d
  | .mul a b, .mul c d => PyAst.beq a c && PyAst.beq b d
  | .rangeCall a b c, .rangeCall d e f => PyAst.beq a d && PyAst.beq b e && PyAst.beq c f
  | .assign a b, .assign c d => PyAst.beq a c && PyAst.beq b d
  | .augAssignAdd a b, .augAssignAdd c d => PyAst.beq a c && PyAst.beq b d
  | .codeBlock a, .codeBlock b => PyAst.beqList a b
  | .forLoop a b c, .forLoop d e f => PyAst.beq a d && PyAst.beq b e && PyAst.beq c f
  | .functionalFor l1 h1 i1 x1, .functionalFor l2 h2 i2 x2 =>
      PyAst.beqList l1 l2 && PyAst.beq h1 h2 && PyAst.beqList i1 i2 && PyAst.beq x1 x2
  | _, _ => false

/-- `PyAst.beq` element-wise over lists. -/
def PyAst.beqList : List PyAst → List PyAst → Bool
  | [], [] => true
  | x :: xs, y :: ys => PyAst.beq x y && PyAst.beqList xs ys
  | _, _ => false

end

instance : BEq PyAst := ⟨PyAst.beq⟩

/-- `isinstance(body, Assign)`: true for `Assign` and its subclass
`AugAssign`. -/
def isAssign : PyAst → Bool
  | .assign _ _ => true
  | .augAssignAdd _ _ => true
  | _ => false

/-- The `lhs` attribute of an assignment node. -/
def assignLhs : PyAst → Option PyAst
  | .assign l _ => some l
  | .augAssignAdd l _ => some l
  | _ => none

/-- The check `isinstance(b, Assign) and b.lhs is dummy_var`. -/
def isAssignToDummy (dummy b : PyAst) : Bool :=
  isAssign b && (assignLhs b == some dummy)

mutual

/-- Embedding of `Basic.substitute(original, replacement)`: replace every
subtree equal to `old` by `new`. -/
def substitute (old new : PyAst) : PyAst → PyAst
  | .var s => if PyAst.beq (PyAst.var s) old then new else .var s
  | .lit n => if PyAst.beq (PyAst.lit n) old then new else .lit n
  | .add a b => if PyAst.beq (PyAst.add a b) old then new
      else .add (substitute old new a) (substitute old new b)
  | .mul a b => if PyAst.beq (PyAst.mul a b) old then new
      else .mul (substitute old new a) (substitute old new b)
  | .rangeCall a b c => if PyAst.beq (PyAst.rangeCall a b c) old then new
      else .rangeCall (substitute old new a) (substitute old new b) (substitute old new c)
  | .assign l r => if PyAst.beq (PyAst.assign l r) old then new
      else .assign (substitute old new l) (substitute old new r)
  | .augAssignAdd l r => if PyAst.beq (PyAst.augAssignAdd l r) old then new
      else .augAssignAdd (substitute old new l) (substitute old new r)
  | .codeBlock body => if PyAst.beq (PyAst.codeBlock body) old then new
      else .codeBlock (substituteList old new body)
  | .forLoop t it bd => if PyAst.beq (PyAst.forLoop t it bd) old then new
      else .forLoop (substitute old new t) (substitute old new it) (substitute old new bd)
  | .functionalFor loops lhs idxs idx =>
      if PyAst.beq (PyAst.functionalFor loops lhs idxs idx) old then new
      else .functionalFor (substituteList old new loops) (substitute old new lhs)
        (substituteList old new idxs) (substitute old new idx)

/-- `substitute` mapped over a list of statements. -/
def substituteList (old new : PyAst) : List PyAst → List PyAst
  | [] => []
  | x :: xs => substitute old new x :: substituteList old new xs

end

/-- The inner `while isinstance(body[0], FunctionalFor)` loop: pop each
leading `FunctionalFor`, substituting its temporary assignment target by the
`FunctionalFor` expression in the remaining statements so the loop is
printed inline. Each iteration shortens the statement list by one (the
substitution preserves length), so the loop performs at most as many
iterations as the list has elements; `fuel` carries that structural bound
and is never exhausted when started at the list length. -/
def popLFFAux : Nat → List PyAst → List PyAst
  | _, [] => []
  | 0, l => l
  | fuel + 1, b :: rest =>
    match b with
    | .functionalFor loops lhs idxs idx =>
        popLFFAux fuel (substituteList lhs (PyAst.functionalFor loops lhs idxs idx) rest)
    | _ => b :: rest

/-- The popping loop entered with its structural bound. -/
def popLeadingFunctionalFors (stmts : List PyAst) : List PyAst :=
  popLFFAux stmts.length stmts

/-- The failure modes of the lowering walk: the `NotImplementedError` raised
for an ambiguous extra statement, the `NotImplementedError` raised for an
unhandled node type, an `IndexError` on an empty block, and fuel
exhaustion of the embedded while-loop. -/
inductive LoweringError where
  | outOfFuel
  | emptyBlock
  | unnecessaryStatements
  | unhandledType
deriving DecidableEq, Repr

/-- Embedding of the `while not isinstance(body, Assign)` loop of
`_find_functional_expr_and_iterables`, with the current statement `body`
and the accumulated list of iterables; `fuel` bounds the number of loop
iterations. The nested-`FunctionalFor` branch is the recursive call to the
top-level function (dummy variable `index`, start statement `loops[1]`,
fresh accumulator) unfolded in place, after which the returned iterables
are appended. -/
def findFEA (fuel : Nat) (dummy : PyAst) (body : PyAst) (iterables : List PyAst) :
    Except LoweringError (PyAst × List PyAst) :=
  match fuel with
  | 0 => .error .outOfFuel
  | fuel + 1 =>
    if isAssign body then .ok (body, iterables)
    else
      match body with
      | .codeBlock stmts =>
          match popLeadingFunctionalFors stmts with
          | [] => .error .emptyBlock
          | b0 :: rest =>
              if decide (1 < (b0 :: rest).length)
                  && rest.any (fun b => ! isAssignToDummy dummy b) then
                .error .unnecessaryStatements
              else findFEA fuel dummy b0 iterables
      | .forLoop _ iterable fbody => findFEA fuel dummy fbody (iterables ++ [iterable])
      | .functionalFor loops _ _ index =>
          match loops[1]? with
          | some l1 =>
              match findFEA fuel index l1 [] with
              | .ok (b, it) => findFEA fuel dummy b (iterables ++ it)
              | .error e => .error e
          | none => .error .emptyBlock
      | _ => .error .unhandledType

/-- Embedding of `_find_functional_expr_and_iterables`: take the dummy
variable `expr.index` and the start statement `expr.loops[1]` and run the
walk. -/
def findFunctionalExprAndIterables (fuel : Nat) (e : PyAst) :
    Except LoweringError (PyAst × List PyAst) :=
  match e with
  | .functionalFor loops _ _ index =>
      match loops[1]? with
      | some l1 => findFEA fuel index l1 []
      | none => .error .emptyBlock
  | _ => .error .unhandledType

/-- The positional zip performed by the caller `_print_FunctionalFor`:
`zip(expr.indices, iterators)` over the lowering's result. -/
def functionalForIndexIterablePairs (fuel : Nat) (e : PyAst) :
    Except LoweringError (List (PyAst × PyAst)) :=
  match e with
  | .functionalFor _ _ indices _ =>
      match findFunctionalExprAndIterables fuel e with
      | .ok (_, iterables) => .ok (indices.zip iterables)
      | .error err => .error err
  | _ => .error .unhandledType

/-- The desugared loop nest of a sum comprehension over indices `i` and `j`:
`d = 0`, then `for i in range(0, n, 1): for j in range(0, m, 1): d += x*x`,
wrapped in a `FunctionalFor` whose dummy accumulator is `d`. -/
def sumLoopExample (i j d lhs n m x : PyAst) : PyAst :=
  PyAst.functionalFor
    [ PyAst.assign d (PyAst.lit 0),
      PyAst.forLoop i (PyAst.rangeCall (PyAst.lit 0) n (PyAst.lit 1))
        (PyAst.codeBlock
          [ PyAst.forLoop j (PyAst.rangeCall (PyAst.lit 0) m (PyAst.lit 1))
              (PyAst.codeBlock [PyAst.augAssignAdd d (PyAst.mul x x)]) ]) ]
    lhs [i, j] d

end Pyccel

namespace Pyccel

/-! ## Theorems about internals.py -/

/-- C6: constructing a `Slice` in the semantic stage raises a `TypeError`
exactly when some present bound among start, stop, step is not a typed value
of integer kind; in the syntactic stage construction always succeeds with no
bound check. -/
theorem slice_semantic_bound_check (start stop step : Option SliceBound) :
    ((∃ e, sliceInit PyccelStage.semantic start stop step = .error e) ↔
      ∃ b ∈ [start, stop, step], ∃ v, b = some v ∧ v.dtype ≠ some NativeType.nativeInteger)
    ∧ sliceInit PyccelStage.syntactic start stop step = .ok (start, stop, step) := by
  constructor
  · have hbad : ∀ b : Option SliceBound,
        (sliceBoundOk b = false) ↔ ∃ v, b = some v ∧ v.dtype ≠ some NativeType.nativeInteger := by
      intro b
      cases b with
      | none => simp [sliceBoundOk]
      | some v => simp [sliceBoundOk]
    constructor
    · intro ⟨e, he⟩
      by_cases h1 : sliceBoundOk start
      · by_cases h2 : sliceBoundOk stop
        · by_cases h3 : sliceBoundOk step
          · simp [sliceInit, h1, h2, h3] at he
          · obtain ⟨v, hv, hvi⟩ := (hbad step).mp (by simpa using h3)
            exact ⟨step, by simp, v, hv, hvi⟩
        · obtain ⟨v, hv, hvi⟩ := (hbad stop).mp (by simpa using h2)
          exact ⟨stop, by simp, v, hv, hvi⟩
      · obtain ⟨v, hv, hvi⟩ := (hbad start).mp (by simpa using h1)
        exact ⟨start, by simp, v, hv, hvi⟩
    · intro ⟨b, hb, v, hv, hvi⟩
      have hmem : b = start ∨ b = stop ∨ b = step := by simpa using hb
      rcases hmem with h | h | h
      · have hko : sliceBoundOk start = false := (hbad start).mpr ⟨v, h ▸ hv, hvi⟩
        exact ⟨"Slice start must be Integer or None", by simp [sliceInit, hko]⟩
      · by_cases h1 : sliceBoundOk start
        · have hko : sliceBoundOk stop = false := (hbad stop).mpr ⟨v, h ▸ hv, hvi⟩
          exact ⟨"Slice stop must be Integer or None", by simp [sliceInit, h1, hko]⟩
        · exact ⟨"Slice start must be Integer or None",
            by simp [sliceInit, Bool.eq_false_iff.mpr h1]⟩
      · by_cases h1 : sliceBoundOk start
        · by_cases h2 : sliceBoundOk stop
          · have hko : sliceBoundOk step = false := (hbad step).mpr ⟨v, h ▸ hv, hvi⟩
            exact ⟨"Slice step must be Integer or None", by simp [sliceInit, h1, h2, hko]⟩
          · exact ⟨"Slice stop must be Integer or None",
              by simp [sliceInit, h1, Bool.eq_false_iff.mpr h2]⟩
        · exact ⟨"Slice start must be Integer or None",
            by simp [sliceInit, Bool.eq_false_iff.mpr h1]⟩
  · simp [sliceInit]

/-- C9: every successfully constructed `PyccelArraySize` node carries the
same fixed type descriptor regardless of its arguments: integer element
kind, rank 0, empty shape and the default integer precision. -/
theorem pyccelArraySize_fixed_descriptor (arg index : PyVal) (s : PyccelArraySizeT)
    (h : pyccelArraySizeInit arg index = .ok s) :
    s.dtype = NativeType.nativeInteger ∧ s.rank = 0 ∧ s.shape = []
      ∧ s.precision = defaultIntegerPrecision := by
  by_cases ha : arg = PyVal.listV ∨ arg = PyVal.tupleV ∨ arg = PyVal.astNodeV
  · cases index <;> simp [pyccelArraySizeInit, ha] at h <;> simp [← h]
  · simp [pyccelArraySizeInit, ha] at h

/-- Witness for C9: a concrete successful construction with an AST-node
argument and the literal index 0. -/
theorem pyccelArraySize_fixed_descriptor_witness :
    (PyccelArraySizeT.mk PyVal.astNodeV (IndexRepr.literalInt 0)
        NativeType.nativeInteger 0 [] defaultIntegerPrecision).dtype = NativeType.nativeInteger
    ∧ (PyccelArraySizeT.mk PyVal.astNodeV (IndexRepr.literalInt 0)
        NativeType.nativeInteger 0 [] defaultIntegerPrecision).rank = 0
    ∧ (PyccelArraySizeT.mk PyVal.astNodeV (IndexRepr.literalInt 0)
        NativeType.nativeInteger 0 [] defaultIntegerPrecision).shape = []
    ∧ (PyccelArraySizeT.mk PyVal.astNodeV (IndexRepr.literalInt 0)
        NativeType.nativeInteger 0 [] defaultIntegerPrecision).precision = defaultIntegerPrecision :=
  pyccelArraySize_fixed_descriptor PyVal.astNodeV (PyVal.intV 0) _ rfl

/-! ## Theorems about import registration and precision printing -/

/-- Registering into the fresh printer state records exactly one entry. -/
theorem insert_new_import_empty (s : String) (t : AsNameT) :
    insert_new_import ⟨[]⟩ s t = ⟨[(s, ([t], [⟨s, [t]⟩]))]⟩ := by
  simp [insert_new_import, setUpdate, List.lookup]

/-- A second registration of the same pair is a no-op. -/
theorem insert_new_import_idem (s : String) (t : AsNameT) :
    insert_new_import (insert_new_import ⟨[]⟩ s t) s t = insert_new_import ⟨[]⟩ s t := by
  rw [insert_new_import_empty]
  simp [insert_new_import, List.lookup]

/-- C5: for every (source module, symbol) pair and every N ≥ 1, registering
the same import N times through `insert_new_import` leaves the state equal
to the state after a single registration, and the collected additional
imports contain exactly one emitted import statement for that pair. -/
theorem import_registration_idempotent (s : String) (t : AsNameT) (N : Nat) (h : 1 ≤ N) :
    (fun st => insert_new_import st s t)^[N] ⟨[]⟩ = insert_new_import ⟨[]⟩ s t
    ∧ (get_additional_imports ((fun st => insert_new_import st s t)^[N] ⟨[]⟩)).countP
        (fun i => i.source == s && i.targets.contains t) = 1 := by
  have key : ∀ k, (fun st => insert_new_import st s t)^[k] (insert_new_import ⟨[]⟩ s t)
      = insert_new_import ⟨[]⟩ s t := by
    intro k
    induction k with
    | zero => rfl
    | succ k ih =>
        rw [Function.iterate_succ_apply, insert_new_import_idem]
        exact ih
  obtain ⟨k, rfl⟩ : ∃ k, N = k + 1 := ⟨N - 1, (Nat.succ_pred_eq_of_pos h).symm⟩
  have hiter : (fun st => insert_new_import st s t)^[k + 1] (⟨[]⟩ : ImportState)
      = insert_new_import ⟨[]⟩ s t := by
    rw [Function.iterate_succ_apply]
    exact key k
  refine ⟨hiter, ?_⟩
  rw [hiter, insert_new_import_empty]
  simp [get_additional_imports, List.countP, List.countP.go]

/-- Witness for C5: three registrations of `array` from `numpy` collapse to
one, yielding a single emitted import for the pair. -/
theorem import_registration_idempotent_witness :
    (fun st => insert_new_import st "numpy" ⟨"array", "array"⟩)^[3] ⟨[]⟩
      = insert_new_import ⟨[]⟩ "numpy" ⟨"array", "array"⟩
    ∧ (get_additional_imports
        ((fun st => insert_new_import st "numpy" ⟨"array", "array"⟩)^[3] ⟨[]⟩)).countP
        (fun i => i.source == "numpy" && i.targets.contains ⟨"array", "array"⟩) = 1 :=
  import_registration_idempotent "numpy" ⟨"array", "array"⟩ 3 (by decide)

/-- C2: `_print_NumpyLinspace` renders a typed value whose precision is the
default marker `-1` with the explicit numeric width suffix `-8` in its dtype
keyword, while `_print_PythonInt` omits any suffix for the same marker. -/
theorem linspace_prints_default_precision_suffix :
    printNumpyLinspace "linspace" "float" (-1) "0.0" "1.0" "n" "True"
      = "linspace(0.0, 1.0, num=n, endpoint=True, dtype=\x27float-8\x27)"
    ∧ printPythonInt none ⟨[]⟩ (-1) "x" = ("int(x)", ⟨[]⟩) := by
  constructor
  · rfl
  · rfl

/-! ## Theorems about directives -/

/-- C7: whenever the grammar engine rejects a directive comment, `parse`
reports a fatal diagnostic carrying the offending comment text verbatim as
its symbol and returns no AST node; the violation is never silently
dropped. -/
theorem directive_violation_reported {α β : Type}
    (modelFromStr : String → Except TextXError (MetaModelT α)) (visit : α → β)
    (stmt : String) (errs : ErrorsState) (e : TextXError)
    (h : modelFromStr stmt = .error e) :
    ompParse modelFromStr visit stmt errs
      = ParseOutcome.returned none (errorsReport errs e.message "fatal" stmt) := by
  simp [ompParse, h]

/-- Witness for C7: a concrete rejecting grammar engine and a concrete
malformed comment. -/
theorem directive_violation_reported_witness :
    ompParse (fun _ => (Except.error ⟨"None match at position 8"⟩ :
        Except TextXError (MetaModelT Nat)))
      (fun n : Nat => n) "#$ omp paralel for" ⟨[]⟩
      = ParseOutcome.returned none
          ⟨[⟨"None match at position 8", "fatal", "#$ omp paralel for"⟩]⟩ :=
  directive_violation_reported
    (fun _ => (Except.error ⟨"None match at position 8"⟩ :
        Except TextXError (MetaModelT Nat)))
    (fun n : Nat => n) "#$ omp paralel for" ⟨[]⟩ ⟨"None match at position 8"⟩ rfl

/-- C8: re-printing the node parsed from `#$ omp parallel for` reconstructs
the clause text `parallel for` byte-identically, re-emitting the combined
construct with the same `for` keyword after the directive name. -/
theorem directive_round_trip :
    printOmpAnnotatedComment parseOmpParallelFor = "#$omp parallel for\n"
    ∧ ompClauseText (printOmpAnnotatedComment parseOmpParallelFor) = "parallel for" := by
  constructor
  · rfl
  · rfl

/-! ## Theorems about composite-definition ordering -/

/-- C1 fails as stated: in the function-definition printer the nested
imports do not come first — on a function with one nested import, one
nested function and a body, the rendered import text occurs after the
rendered nested-function text. -/
theorem nested_decl_order_counterexample :
    occursBeforeIn (indentCodestring "import m\n") (indentCodestring "def g():\n    pass\n")
      (printFunctionDef sampleFunctionDef) = false
    ∧ occursBeforeIn (indentCodestring "def g():\n    pass\n") (indentCodestring "import m\n")
      (printFunctionDef sampleFunctionDef) = true := by
  constructor
  · rfl
  · rfl

/-- C1 (amended): only the module printer emits nested imports first; the
function-definition printer emits, in order, the doc string, the nested
functions not covered by an interface, the interfaces, the nested imports,
and then the main body, each indented one level. -/
theorem nested_decl_order (fd : PFunctionDef) (m : PModule) (addl : String) :
    printFunctionDef fd =
      "def " ++ fd.name ++ "(" ++ String.intercalate ", " fd.args ++ "):\n"
        ++ (indentCodestring fd.docString
            ++ indentCodestring (String.join ((functionDefFuncsNotCovered fd).map (fun f => f.text)))
            ++ indentCodestring (String.join
                ((fd.interfaces.filter (fun i => ! i.isArgument)).map (fun i => i.text)))
            ++ indentCodestring (String.join fd.imports)
            ++ indentCodestring fd.bodyText)
        ++ "\n"
    ∧ printModule m addl =
      (String.join m.imports ++ addl) ++ "\n"
        ++ (String.join (m.interfaces.map (fun i => i.text))
            ++ String.join ((moduleFuncsNotCovered m).map (fun f => f.text))
            ++ m.classesText ++ m.initBodyText)
        ++ m.progText := by
  constructor
  · rfl
  · rfl

/-! ## Theorems about comprehension lowering -/

/-- C3: lowering the two-level nested sum loop recovers the terminal
assignment computing `x*x` and the iterables `[range(0, n), range(0, m)]`
in outer-to-inner order, and the caller's positional zip pairs index `i`
with the outer range and index `j` with the inner range. -/
theorem comprehension_round_trip (i j d lhs n m x : PyAst) :
    findFunctionalExprAndIterables 9 (sumLoopExample i j d lhs n m x)
      = .ok (PyAst.augAssignAdd d (PyAst.mul x x),
          [PyAst.rangeCall (PyAst.lit 0) n (PyAst.lit 1),
           PyAst.rangeCall (PyAst.lit 0) m (PyAst.lit 1)])
    ∧ functionalForIndexIterablePairs 9 (sumLoopExample i j d lhs n m x)
      = .ok [(i, PyAst.rangeCall (PyAst.lit 0) n (PyAst.lit 1)),
             (j, PyAst.rangeCall (PyAst.lit 0) m (PyAst.lit 1))] := by
  constructor
  · rfl
  · rfl

/-- C4: during the lowering walk, a block whose statement list — after the
leading nested comprehensions are popped and inline-substituted — still has
more than one statement fails fatally when some statement after the first
is not an assignment to the dummy accumulator, and otherwise descent
continues on the first statement. -/
theorem lowering_block_policy (fuel : Nat) (dummy : PyAst) (stmts : List PyAst)
    (b0 : PyAst) (rest : List PyAst) (acc : List PyAst)
    (hpop : popLeadingFunctionalFors stmts = b0 :: rest) :
    ((∃ b ∈ rest, isAssignToDummy dummy b = false) →
        findFEA (fuel + 1) dummy (PyAst.codeBlock stmts) acc = .error .unnecessaryStatements)
    ∧ ((∀ b ∈ rest, isAssignToDummy dummy b = true) →
        findFEA (fuel + 1) dummy (PyAst.codeBlock stmts) acc = findFEA fuel dummy b0 acc) := by
  have hstep0 : findFEA (fuel + 1) dummy (PyAst.codeBlock stmts) acc =
      (match popLeadingFunctionalFors stmts with
       | [] => .error .emptyBlock
       | b0 :: rest =>
          if decide (1 < (b0 :: rest).length)
              && rest.any (fun b => ! isAssignToDummy dummy b) then
            .error .unnecessaryStatements
          else findFEA fuel dummy b0 acc) := rfl
  rw [hpop] at hstep0
  have hstep : findFEA (fuel + 1) dummy (PyAst.codeBlock stmts) acc =
      (if decide (1 < (b0 :: rest).length)
          && rest.any (fun b => ! isAssignToDummy dummy b) then
        .error .unnecessaryStatements
      else findFEA fuel dummy b0 acc) := hstep0
  constructor
  · intro ⟨b, hb, hfb⟩
    have hlen : 1 < (b0 :: rest).length := by
      have hr : 0 < rest.length := List.length_pos.mpr (List.ne_nil_of_mem hb)
      simp only [List.length_cons]
      omega
    have hany : rest.any (fun b => ! isAssignToDummy dummy b) = true :=
      List.any_eq_true.mpr ⟨b, hb, by simp [hfb]⟩
    have hcond : (decide (1 < (b0 :: rest).length)
        && rest.any (fun b => ! isAssignToDummy dummy b)) = true := by
      rw [hany, Bool.and_true, decide_eq_true_eq]
      exact hlen
    rw [hstep]
    exact if_pos hcond
  · intro hall
    have hany : rest.any (fun b => ! isAssignToDummy dummy b) = false := by
      rw [List.any_eq_false]
      intro b hb
      simp [hall b hb]
    have hcond : (decide (1 < (b0 :: rest).length)
        && rest.any (fun b => ! isAssignToDummy dummy b)) = false := by
      rw [hany, Bool.and_false]
    rw [hstep]
    exact if_neg (fun hc => Bool.false_ne_true (hcond ▸ hc))

/-- Witness for C4: a two-statement block whose second statement assigns to
a variable other than the dummy accumulator `s` is rejected as
unnecessary statements. -/
theorem lowering_block_policy_witness :
    findFEA 4 (PyAst.var "s")
      (PyAst.codeBlock
        [PyAst.augAssignAdd (PyAst.var "s") (PyAst.mul (PyAst.var "x") (PyAst.var "x")),
         PyAst.assign (PyAst.var "t") (PyAst.lit 2)]) []
      = .error .unnecessaryStatements :=
  (lowering_block_policy 3 (PyAst.var "s")
    [PyAst.augAssignAdd (PyAst.var "s") (PyAst.mul (PyAst.var "x") (PyAst.var "x")),
     PyAst.assign (PyAst.var "t") (PyAst.lit 2)]
    (PyAst.augAssignAdd (PyAst.var "s") (PyAst.mul (PyAst.var "x") (PyAst.var "x")))
    [PyAst.assign (PyAst.var "t") (PyAst.lit 2)] [] rfl).1
    ⟨PyAst.assign (PyAst.var "t") (PyAst.lit 2), List.mem_singleton.mpr rfl, rfl⟩

/-- C10: on the base class `PyccelInternalFunction`, which does not override
the elemental flag, `is_elemental` returns `False` for every node, so the
Python printer's only call form for such nodes is the direct call. -/
theorem internalFunction_not_elemental (f : PyccelInternalFunctionT) :
    f.is_elemental = false ∧
      printPyccelInternalFunction "f" ["x"] = "f(x)" := by
  constructor
  · rfl
  · rfl

end Pyccel
